import Mathlib

/-!
# mydocker: registry client pipeline and launch sequence

A shallow embedding of `app/ImageManager/Authenticator.go`,
`app/ImageManager/ImageManger.go` and `app/main.go`.

Conventions of the embedding

* A Go `error` value is a `String` (its message); a result of type `error`
  is `Option String`, with `none` for `nil`.
* A call that may also raise a run-time panic, or block for ever, returns a
  `Res`.
* Everything outside the repository (network, clock, file system, system
  calls, the `tar` program) is an explicit parameter: a record of functions
  giving the outcome of each external operation.
* Observable effects are recorded as a list of `Event`s in program order.
-/

namespace Mydocker

/-! ## Outcomes -/

/-- Outcome of a Go call: a normal return with a value, a returned `error`,
a run-time panic, or a goroutine blocked for ever. -/
inductive Res (α : Type) where
  | ok (a : α)
  | err (e : String)
  | panic (msg : String)
  | hang
deriving DecidableEq

deriving instance DecidableEq for Except

/-- Message of the run-time panic raised by an out-of-range index. -/
def indexOutOfRange : String := "runtime error: index out of range"

/-- Message of the run-time panic raised by reading through a nil pointer. -/
def nilDereference : String := "runtime error: invalid memory address or nil pointer dereference"

/-! ## Authenticator.go -/

/-- Go: `type IMAGESCOPE int`. -/
abbrev IMAGESCOPE := Int

def DOCKER_AUTH : String := "auth.docker.io"
def DOCKER_REGISTRY : String := "registry.docker.io"

/-- Go: `PULL IMAGESCOPE = iota`. -/
def PULL : IMAGESCOPE := 0
/-- Go: second constant of the `iota` block. -/
def PUSH : IMAGESCOPE := 1
/-- Go: third constant of the `iota` block. -/
def PULLPUSH : IMAGESCOPE := 2

/-- Go: `func (i IMAGESCOPE) String() string`, which indexes the array literal
`[...]string{"pull", "push", "pull,push"}` with `i`. An index outside the
array is a run-time panic, rendered here as `none`. -/
def IMAGESCOPE.String (i : IMAGESCOPE) : Option String :=
  if 0 ≤ i then ["pull", "push", "pull,push"].get? i.toNat else none

/-- Go: `type AuthenticationResponse struct`. `Expires_in` is a Go `int`
(64 bits on the supported platforms). -/
structure AuthenticationResponse where
  Token : String
  Access_token : String
  Expires_in : Int
  Issued_at : String
deriving DecidableEq

/-- Go: `type imageRequest struct`, the key of the credential cache. -/
structure imageRequest where
  image : String
  scope : IMAGESCOPE
deriving DecidableEq

/-- Go: `map[imageRequest]AuthenticationResponse`. A nil map and an empty map
read alike, and `Authenticate` allocates the map before its first write. -/
abbrev Cache := imageRequest → Option AuthenticationResponse

/-- The empty credential cache. -/
def Cache.empty : Cache := fun _ => none

/-- Go: `o.cache[k] = v`. -/
def Cache.insert (c : Cache) (k : imageRequest) (v : AuthenticationResponse) : Cache :=
  fun k' => if k' = k then some v else c k'

/-- Go: `delete(o.cache, k)`. -/
def Cache.delete (c : Cache) (k : imageRequest) : Cache :=
  fun k' => if k' = k then none else c k'

/-- An instant, in nanoseconds (the resolution of `time.Time`). -/
abbrev Time := Int

/-- Go: `time.Second`, a `time.Duration` counted in nanoseconds. -/
def Second : Int := 1000000000

/-- Two's-complement wrap-around of a 64-bit signed integer. -/
def wrapInt64 (x : Int) : Int := (x + 2 ^ 63) % 2 ^ 64 - 2 ^ 63

/-- Go: `time.Duration(cache.Expires_in) * time.Second`: a product of two
`int64` values, which wraps around silently. -/
def expiresDuration (expires_in : Int) : Int := wrapInt64 (wrapInt64 expires_in * Second)

/-- Go: `issued_at.Add(time.Duration(cache.Expires_in) * time.Second)`.
`time.Time` counts seconds in an `int64`, so adding a `Duration` (at most
about 292 years) to a parsed RFC 3339 instant is exact. -/
def expiresAt (issued_at : Time) (expires_in : Int) : Time :=
  issued_at + expiresDuration expires_in

/-- The network as seen from `Authenticator.go` during one call: the request
constructor and the token endpoint. -/
structure TokenEndpoint where
  /-- Go: the error of `http.NewRequestWithContext(ctx, "GET", url, nil)`. -/
  newRequest : String → Option String
  /-- Go: `client.Do(req)` on the token URL followed by the JSON decoding of
  the body: the decoded credential, or the transport or decoding error. -/
  token : String → Except String AuthenticationResponse

/-- The URL built by `fmt.Sprintf` in `authenticate`. -/
def tokenURL (image scopeString : String) : String :=
  "https://" ++ DOCKER_AUTH ++ "/token?service=" ++ DOCKER_REGISTRY ++
    "&scope=repository:library/" ++ image ++ ":" ++ scopeString

/-- Go: `func authenticate(ctx, image, scope)`. The second component counts
the requests sent to the token endpoint (calls of `client.Do`). -/
def authenticate (net : TokenEndpoint) (image : String) (scope : IMAGESCOPE) :
    Res AuthenticationResponse × Nat :=
  match IMAGESCOPE.String scope with
  | none => (.panic indexOutOfRange, 0)
  | some s =>
    match net.newRequest (tokenURL image s) with
    | some e => (.err e, 0)
    | none =>
      match net.token (tokenURL image s) with
      | .error e => (.err e, 1)
      | .ok r => (.ok r, 1)

/-- What one call of `Authenticate` leaves behind. -/
structure AuthResult where
  /-- The returned `error` (`ok ()` for `nil`), or a panic. -/
  result : Res Unit
  /-- The credential cache after the call. -/
  cache : Cache
  /-- The value added to the request as its `Authorization` header, if any. -/
  header : Option String
  /-- Number of requests sent to the token endpoint during the call. -/
  requests : Nat

/-- The tail of `Authenticate` (from the call of `authenticate` on), run on
the cache `c` left by the lookup. -/
def Authenticate.refresh (net : TokenEndpoint) (c : Cache) (image : String)
    (scope : IMAGESCOPE) : AuthResult :=
  match authenticate net image scope with
  | (.ok r, n) =>
    { result := .ok (), cache := c.insert ⟨image, scope⟩ r,
      header := some ("Bearer " ++ r.Token), requests := n }
  | (.err e, n) => { result := .err e, cache := c, header := none, requests := n }
  | (.panic m, n) => { result := .panic m, cache := c, header := none, requests := n }
  | (.hang, n) => { result := .hang, cache := c, header := none, requests := n }

/-- Go: `func (o *OCIAuthenticator) Authenticate(context, request, image, scope)`,
called at instant `now` (the value of `time.Now()`) on the cache `c`.
`parseTime` is `time.Parse(time.RFC3339Nano, ·)`: the instant, or the parse
error. -/
def Authenticate (parseTime : String → Except String Time) (net : TokenEndpoint) (now : Time)
    (c : Cache) (image : String) (scope : IMAGESCOPE) : AuthResult :=
  match c ⟨image, scope⟩ with
  | some cached =>
    match parseTime cached.Issued_at with
    | .error e => { result := .err e, cache := c, header := none, requests := 0 }
    | .ok issued_at =>
      if now > expiresAt issued_at cached.Expires_in then
        Authenticate.refresh net (c.delete ⟨image, scope⟩) image scope
      else
        { result := .ok (), cache := c, header := some ("Bearer " ++ cached.Token),
          requests := 0 }
  | none => Authenticate.refresh net c image scope

/-! ## ImageManger.go: data model -/

def DOCKER_HUB : String := "registry.hub.docker.com"

/-- Go: the anonymous struct type of the field `Platform` of `Manifest`. -/
structure Platform where
  Architecture : String
  OS : String
deriving DecidableEq

/-- Go: `type Manifest struct`, an entry of an index manifest. -/
structure Manifest where
  MediaType : String
  SchemaVersion : Int
  Digest : String
  Size : Int
  Platform : Platform
deriving DecidableEq

/-- Go: `type Layer struct`. -/
structure Layer where
  MediaType : String
  Size : Int
  Digest : String
deriving DecidableEq

/-- Go: `type ImageIndexManifest struct`, as left by `encoding/json`.
`Manifest` is only ranged over, so a nil slice and an empty one coincide.
`Layers` is compared with `nil`: it is `none` for the nil slice (the JSON
field absent or `null`) and `some l` for a non-nil slice (`some []` for
the JSON value `[]`). -/
structure ImageIndexManifest where
  SchemaVersion : Int
  MediaType : String
  Manifest : List Manifest
  Layers : Option (List Layer)
deriving DecidableEq

/-- Go: `type LayersManifest struct`. -/
structure LayersManifest where
  SchemaVersion : Int
  MediaType : String
  Config : Layer
  Layers : List Layer
deriving DecidableEq

/-- Go: `*http.Response`, with the body replaced by the outcome of reading it
to the end as a value of type `α` (JSON decoding for a manifest, the raw
content for a blob). -/
structure Response (α : Type) where
  StatusCode : Int
  Status : String
  Body : Except String α

/-- Go: the pair `(res, err)` returned by `client.Do`. A transport failure
gives a nil response with an error; a response and an error come together
only when the redirect policy gives up. -/
inductive DoResult (α : Type) where
  | response (res : Response α)
  | failure (e : String)
  | responseAndError (res : Response α) (e : String)

/-- Go: `http.StatusOK`. -/
def StatusOK : Int := 200

/-- Observable effects, in program order. -/
inductive Event where
  /-- A call of `m.auth.Authenticate` for the request to the given URL. -/
  | auth (url : String)
  /-- A call of `client.Do` on a registry URL. -/
  | get (url : String)
  /-- A line written to standard output. -/
  | print (line : String)
  /-- Go: `os.Create(path)`. -/
  | create (path : String)
  /-- Go: `io.Copy(file, res.Body)` into the file at `path`. -/
  | copy (path : String)
  /-- Go: `os.ReadDir(dir)`. -/
  | readDir (dir : String)
  /-- A complete run (`cmd.Run()`: start and wait) of `tar -xvf tarPath -C rootDir`. -/
  | tar (tarPath rootDir : String)
  /-- Go: `os.Remove(path)`. -/
  | remove (path : String)
  /-- Start of the download goroutine of the layer with the given digest. -/
  | spawn (digest : String)
  /-- A value received from `errChan`. -/
  | receive (msg : Option String)
  /-- The receive on `errChan` that no goroutine will ever serve. -/
  | blocked
  /-- Go: `os.MkdirTemp("", "my_docker")`. -/
  | mkdirTemp
  /-- Go: `os.MkdirAll(path, 0755)`. -/
  | mkdirAll (path : String)
  /-- Go: `os.Link(oldname, newname)`. -/
  | link (oldname newname : String)
  /-- Go: `syscall.Chroot(path)`. -/
  | chroot (path : String)
  /-- Go: `syscall.Unshare(syscall.CLONE_NEWPID)`. -/
  | unshare
  /-- Go: `os.Chdir(path)`. -/
  | chdir (path : String)
  /-- Go: `cmd.Run()` of the target command. -/
  | run (command : String) (args : List String)
  /-- Go: `os.Exit(code)`. -/
  | exit (code : Int)
deriving DecidableEq

/-- A result together with the effects performed on the way. -/
abbrev Traced (α : Type) := Res α × List Event

/-- Sequencing: run `f` on the value of `r` when `r` returned normally, and
stop at the first error, panic or block otherwise. -/
def Traced.andThen {α β : Type} (r : Traced α) (f : α → Traced β) : Traced β :=
  match r with
  | (.ok a, t) => ((f a).1, t ++ (f a).2)
  | (.err e, t) => (.err e, t)
  | (.panic m, t) => (.panic m, t)
  | (.hang, t) => (.hang, t)

/-- What lies outside `ImageManger.go` and `main.go`. -/
structure World where
  /-- Go: the error of `http.NewRequestWithContext(ctx, "GET", url, nil)`. -/
  newRequest : String → Option String
  /-- Go: the error of `m.auth.Authenticate(ctx, req, image, PULL)` for the
  request to `url` (the authenticator is an interface value). -/
  auth : (url image : String) → Option String
  /-- Go: `client.Do` on the URL of a tag manifest. -/
  index : String → DoResult ImageIndexManifest
  /-- Go: `client.Do` on the URL of a digest manifest. -/
  layers : String → DoResult LayersManifest
  /-- Go: `client.Do` on the URL of a blob. -/
  blob : String → DoResult String
  /-- Go: `runtime.GOARCH`. -/
  GOARCH : String
  /-- Go: `runtime.GOOS`. -/
  GOOS : String
  /-- Go: `path.Join` and `filepath.Join` of two elements. -/
  join : String → String → String
  /-- Go: the error of `os.Create(path)`. -/
  create : String → Option String
  /-- Go: the error of writing a fully read body to the file at `path`. -/
  write : String → Option String
  /-- The names of the entries of a directory, in any order, or the error of
  reading it. -/
  entries : String → Except String (List String)
  /-- Go: the error of `cmd.Run()` for `tar -xvf tarPath -C rootDir`. -/
  tar : (tarPath rootDir : String) → Option String
  /-- Go: the error of `os.Remove(path)`. -/
  remove : String → Option String
  /-- Go: `os.MkdirTemp("", "my_docker")`. -/
  mkdirTemp : Except String String
  /-- Go: `filepath.IsAbs`. -/
  isAbs : String → Bool
  /-- Go: `filepath.Abs`. -/
  abs : String → Except String String
  /-- Go: `filepath.Dir`. -/
  dir : String → String
  /-- Go: the error of `os.MkdirAll(path, 0755)`. -/
  mkdirAll : String → Option String
  /-- Go: the error of `os.Link(oldname, newname)`. -/
  link : String → String → Option String
  /-- Go: the error of `syscall.Chroot(path)`. -/
  chroot : String → Option String
  /-- Go: the error of `syscall.Unshare(syscall.CLONE_NEWPID)`. -/
  unshare : Option String
  /-- Go: the error of `os.Chdir(path)`. -/
  chdir : String → Option String
  /-- Go: the error of `cmd.Run()` for the target command. -/
  run : String → List String → Option String

/-! ## ImageManger.go: manifest resolution -/

/-- The URL built by `fmt.Sprintf` in `getIndexManifest` and `getLayers`. -/
def manifestURL (image reference : String) : String :=
  "https://" ++ DOCKER_HUB ++ "/v2/library/" ++ image ++ "/manifests/" ++ reference

/-- The URL built by `fmt.Sprintf` in `downloadLayer`. -/
def blobURL (image digest : String) : String :=
  "https://" ++ DOCKER_HUB ++ "/v2/library/" ++ image ++ "/blobs/" ++ digest

/-- Go: `func (m *ImageManager) getIndexManifest(ctx, image, tag, token)`. -/
def getIndexManifest (w : World) (image tag : String) : Traced ImageIndexManifest :=
  match w.newRequest (manifestURL image tag) with
  | some e => (.err e, [])
  | none =>
    match w.auth (manifestURL image tag) image with
    | some e => (.err e, [.auth (manifestURL image tag)])
    | none =>
      match w.index (manifestURL image tag) with
      | .failure e => (.err e, [.auth (manifestURL image tag), .get (manifestURL image tag)])
      | .responseAndError _ e =>
        (.err e, [.auth (manifestURL image tag), .get (manifestURL image tag)])
      | .response res =>
        match res.Body with
        | .error e => (.err e, [.auth (manifestURL image tag), .get (manifestURL image tag)])
        | .ok manifest =>
          (.ok manifest, [.auth (manifestURL image tag), .get (manifestURL image tag)])

/-- The loop of `findArchitectureSpecificDigest` over `manifest.Manifest`, for
the host platform `(goarch, goos)`. -/
def findArchitectureSpecificDigest.scan (goarch goos : String) : List Manifest → Option String
  | [] => none
  | layer :: rest =>
    if layer.Platform.Architecture = goarch ∧ layer.Platform.OS = goos then some layer.Digest
    else findArchitectureSpecificDigest.scan goarch goos rest

/-- Go: `func findArchitectureSpecificDigest(manifest ImageIndexManifest) (string, error)`,
with `runtime.GOARCH` and `runtime.GOOS` as parameters. -/
def findArchitectureSpecificDigest (goarch goos : String) (manifest : ImageIndexManifest) :
    Except String String :=
  match findArchitectureSpecificDigest.scan goarch goos manifest.Manifest with
  | some digest => .ok digest
  | none => .error ("No matching layer found for " ++ goarch ++ "/" ++ goos)

/-- Go: `func (m *ImageManager) getLayers(ctx, image, digest)`. The status
code of `res` is read before `err` is looked at, so a nil `res` faults. -/
def getLayers (w : World) (image digest : String) : Traced (List Layer) :=
  match w.newRequest (manifestURL image digest) with
  | some e => (.err e, [])
  | none =>
    match w.auth (manifestURL image digest) image with
    | some e => (.err e, [.auth (manifestURL image digest)])
    | none =>
      match w.layers (manifestURL image digest) with
      | .failure _ =>
        (.panic nilDereference, [.auth (manifestURL image digest), .get (manifestURL image digest)])
      | .responseAndError res e =>
        if res.StatusCode ≠ StatusOK then
          (.err ("Error fetching layers: " ++ res.Status),
            [.auth (manifestURL image digest), .get (manifestURL image digest)])
        else (.err e, [.auth (manifestURL image digest), .get (manifestURL image digest)])
      | .response res =>
        if res.StatusCode ≠ StatusOK then
          (.err ("Error fetching layers: " ++ res.Status),
            [.auth (manifestURL image digest), .get (manifestURL image digest)])
        else
          match res.Body with
          | .error e =>
            (.err e, [.auth (manifestURL image digest), .get (manifestURL image digest)])
          | .ok manifest =>
            (.ok manifest.Layers,
              [.auth (manifestURL image digest), .get (manifestURL image digest)])

/-! ## ImageManger.go: download and extraction -/

/-- The name under which `downloadLayer` stores the blob of a digest. -/
def archiveName (digest : String) : String := digest ++ ".tar"

/-- Go: `func (m *ImageManager) downloadLayer(ctx, image, rootDir, digest) error`.
The status code of the response is never read. -/
def downloadLayer (w : World) (image rootDir digest : String) : Option String × List Event :=
  match w.newRequest (blobURL image digest) with
  | some e => (some e, [])
  | none =>
    match w.auth (blobURL image digest) image with
    | some e => (some e, [.auth (blobURL image digest)])
    | none =>
      match w.blob (blobURL image digest) with
      | .failure e =>
        (some e, [.auth (blobURL image digest), .print ("Downloading layer " ++ digest),
          .get (blobURL image digest)])
      | .responseAndError _ e =>
        (some e, [.auth (blobURL image digest), .print ("Downloading layer " ++ digest),
          .get (blobURL image digest)])
      | .response res =>
        match w.create (w.join rootDir (archiveName digest)) with
        | some e =>
          (some e, [.auth (blobURL image digest), .print ("Downloading layer " ++ digest),
            .get (blobURL image digest), .create (w.join rootDir (archiveName digest))])
        | none =>
          ((match res.Body with
            | .error e => some e
            | .ok _ => w.write (w.join rootDir (archiveName digest))),
            [.auth (blobURL image digest), .print ("Downloading layer " ++ digest),
              .get (blobURL image digest), .create (w.join rootDir (archiveName digest)),
              .copy (w.join rootDir (archiveName digest))])

/-- Byte-wise lexicographic order on file names (code points and UTF-8 bytes
order strings alike). -/
def nameLt : List Char → List Char → Bool
  | _, [] => false
  | [], _ :: _ => true
  | a :: as, b :: bs =>
    if a.toNat < b.toNat then true
    else if a.toNat = b.toNat then nameLt as bs
    else false

/-- Insertion of a name into a list sorted by file name. -/
def insertName (a : String) : List String → List String
  | [] => [a]
  | b :: l => if nameLt b.data a.data then b :: insertName a l else a :: b :: l

/-- Go: the order in which `os.ReadDir` returns the entries of a directory:
sorted by file name. -/
def sortNames : List String → List String
  | [] => []
  | a :: l => insertName a (sortNames l)

/-- Go: `strings.HasSuffix(s, suffix)`. -/
def HasSuffix (s suffix : String) : Bool := suffix.data.isSuffixOf s.data

/-- The loop of `extractTar` over the directory entries `files`. -/
def extractTar.loop (w : World) (rootDir : String) : List String → Traced Unit
  | [] => (.ok (), [])
  | file :: rest =>
    if HasSuffix file ".tar" then
      match w.tar (w.join rootDir file) rootDir with
      | some e =>
        (.err e, [.print ("Extracting " ++ w.join rootDir file), .tar (w.join rootDir file) rootDir])
      | none =>
        match w.remove (w.join rootDir file) with
        | some e =>
          (.err e, [.print ("Extracting " ++ w.join rootDir file),
            .tar (w.join rootDir file) rootDir, .remove (w.join rootDir file)])
        | none =>
          ((extractTar.loop w rootDir rest).1,
            [.print ("Extracting " ++ w.join rootDir file),
              .tar (w.join rootDir file) rootDir, .remove (w.join rootDir file)] ++
            (extractTar.loop w rootDir rest).2)
    else extractTar.loop w rootDir rest

/-- Go: `func extractTar(rootDir string) error`. -/
def extractTar (w : World) (rootDir : String) : Traced Unit :=
  match w.entries rootDir with
  | .error e => (.err e, [.readDir rootDir])
  | .ok names =>
    ((extractTar.loop w rootDir (sortNames names)).1,
      .readDir rootDir :: (extractTar.loop w rootDir (sortNames names)).2)

/-! ## ImageManger.go: the orchestrator `Pull`

`errChan` is an unbuffered channel: a send completes only when it meets a
receive. The state of the channel is, for each goroutine started so far, the
list of values that goroutine still has to send, in order. A receive takes
the next value of one of the goroutines that have one left (which one is up
to the scheduler); when no goroutine has a value left the receive blocks
for ever. -/

/-- The values the download goroutine sends on `errChan`, in order, when
`downloadLayer` returned `err`: the error (if any), and then `nil` in every
case. -/
def goroutineSends (err : Option String) : List (Option String) :=
  match err with
  | some e => [some e, none]
  | none => [none]

/-- The goroutines, by index, that have a value left to send. -/
def ready (senders : List (List (Option String))) : List Nat :=
  (List.range senders.length).filter fun i => (senders.getD i []) ≠ []

/-- One receive on `errChan`: the received value and the channel state
after it, or `none` when the receive blocks for ever. `choice` is the
decision of the scheduler among the ready senders. -/
def receive (choice : Nat) (senders : List (List (Option String))) :
    Option (Option String × List (List (Option String))) :=
  match ready senders with
  | [] => none
  | r :: rs =>
    match senders.getD ((r :: rs).getD (choice % (rs.length + 1)) r) [] with
    | [] => none
    | msg :: rest => some (msg, senders.set ((r :: rs).getD (choice % (rs.length + 1)) r) rest)

/-- The inner loop of `Pull` (`for i := 0; i < len(*imageLayers); i++`) with
`n` rounds to go; `k` counts the receives done so far. Returns the channel
state and the count on completion. -/
def Pull.wait (sched : Nat → Nat) :
    Nat → Nat → List (List (Option String)) → Traced (List (List (Option String)) × Nat)
  | 0, k, senders => (.ok (senders, k), [])
  | n + 1, k, senders =>
    match receive (sched k) senders with
    | none => (.hang, [.blocked])
    | some (some e, _) => (.err e, [.receive (some e)])
    | some (none, senders') =>
      ((Pull.wait sched n (k + 1) senders').1, .receive none :: (Pull.wait sched n (k + 1) senders').2)

/-- The outer loop of `Pull` (`for _, layer := range *imageLayers`), where
`total` is `len(*imageLayers)`. The effects of a goroutine are listed right
after its start. -/
def Pull.fanOut (w : World) (sched : Nat → Nat) (image path : String) (total : Nat) :
    List Layer → Nat → List (List (Option String)) → Traced Unit
  | [], _, _ => (.ok (), [])
  | layer :: rest, k, senders =>
    match Pull.wait sched total k
        (senders ++ [goroutineSends (downloadLayer w image path layer.Digest).1]) with
    | (.ok (senders', k'), t) =>
      ((Pull.fanOut w sched image path total rest k' senders').1,
        .spawn layer.Digest :: (downloadLayer w image path layer.Digest).2 ++ t ++
          (Pull.fanOut w sched image path total rest k' senders').2)
    | (.err e, t) =>
      (.err e, .spawn layer.Digest :: (downloadLayer w image path layer.Digest).2 ++ t)
    | (.panic m, t) =>
      (.panic m, .spawn layer.Digest :: (downloadLayer w image path layer.Digest).2 ++ t)
    | (.hang, t) =>
      (.hang, .spawn layer.Digest :: (downloadLayer w image path layer.Digest).2 ++ t)

/-- The part of `Pull` that settles `imageLayers` from the decoded index
manifest (`var imageLayers *[]Layer` up to the end of the `if`). -/
def Pull.imageLayers (w : World) (image : String) (manifest : ImageIndexManifest) :
    Traced (List Layer) :=
  match manifest.Layers with
  | none =>
    match findArchitectureSpecificDigest w.GOARCH w.GOOS manifest with
    | .error e => (.err e, [])
    | .ok imageDigest => getLayers w image imageDigest
  | some layers => (.ok layers, [])

/-- Go: `func (m *ImageManager) Pull(image, tag, path string) error`. -/
def Pull (w : World) (sched : Nat → Nat) (image tag path : String) : Traced Unit :=
  (getIndexManifest w image tag).andThen fun manifest =>
  (Pull.imageLayers w image manifest).andThen fun imageLayers =>
  (Pull.fanOut w sched image path imageLayers.length imageLayers 0 []).andThen fun _ =>
  extractTar w path

/-! ## main.go -/

/-- Splitting of a list of characters at every occurrence of `sep`. -/
def splitChars (sep : Char) : List Char → List (List Char)
  | [] => [[]]
  | c :: cs =>
    if c = sep then [] :: splitChars sep cs
    else
      match splitChars sep cs with
      | [] => [[c]]
      | h :: t => (c :: h) :: t

/-- Go: `strings.Split(s, sep)` for a separator of one character. -/
def Split (s : String) (sep : Char) : List String :=
  (splitChars sep s.data).map String.mk

/-- Go: `func resolveAbsPath(path string) (string, error)`. -/
def resolveAbsPath (w : World) (path : String) : Except String String :=
  if w.isAbs path then .ok path else w.abs path

/-- Go: `func CreateTemporaryRoot() (root string, err error)`. -/
def CreateTemporaryRoot (w : World) : Except String String × List Event :=
  match w.mkdirTemp with
  | .error e => (.error e, [.mkdirTemp])
  | .ok root => (.ok root, [.mkdirTemp])

/-- Go: `func CopyIntoRoot(root, entrypoint string) error`. -/
def CopyIntoRoot (w : World) (root entrypoint : String) : Option String × List Event :=
  match resolveAbsPath w entrypoint with
  | .error e => (some e, [])
  | .ok entrypoint =>
    match w.mkdirAll (root ++ w.dir entrypoint) with
    | some e => (some e, [.mkdirAll (root ++ w.dir entrypoint)])
    | none =>
      (w.link entrypoint (root ++ entrypoint),
        [.mkdirAll (root ++ w.dir entrypoint), .link entrypoint (root ++ entrypoint)])

/-- Go: `func IsolateRoot(path string) error`. -/
def IsolateRoot (w : World) (path : String) : Option String × List Event :=
  match w.chroot path with
  | some e => (some e, [.chroot path])
  | none =>
    match w.unshare with
    | some e => (some e, [.chroot path, .unshare])
    | none => (w.chdir "/", [.chroot path, .unshare, .chdir "/"])

/-- The line printed by `fmt.Printf("Running %s %v\n", command, args)`. -/
def runningLine (command : String) (args : List String) : String :=
  "Running " ++ command ++ " [" ++ " ".intercalate args ++ "]"

/-- The launch sequence of `main` once the root exists and the image is
pulled: from `err = CopyIntoRoot(root, command)` to `os.Exit(0)`. The error of
`CopyIntoRoot` is overwritten by the next assignment before it is read, the
error of `cmd.Run()` is never read, and the deferred `os.Remove(root)` does
not run because the process leaves through `os.Exit`. -/
def main.launch (w : World) (root command : String) (args : List String) : Traced Int :=
  match (IsolateRoot w root).1 with
  | some e =>
    (.ok 1, (CopyIntoRoot w root command).2 ++ (IsolateRoot w root).2 ++ [.print e, .exit 1])
  | none =>
    (.ok 0, (CopyIntoRoot w root command).2 ++ (IsolateRoot w root).2 ++
      [.print (runningLine command args), .run command args, .exit 0])

/-- Go: `func main()`, on the argument vector `Args` (`os.Args`). The value
is the exit status of the process. -/
def main (w : World) (sched : Nat → Nat) (Args : List String) : Traced Int :=
  match Args.get? 2, Args.get? 3 with
  | some image_tag, some command =>
    match (CreateTemporaryRoot w).1 with
    | .error e => (.ok 1, (CreateTemporaryRoot w).2 ++ [.print e, .exit 1])
    | .ok root =>
      match (Split image_tag ':').get? 0, (Split image_tag ':').get? 1 with
      | some image, some tag =>
        match Pull w sched image tag root with
        | (.err e, t) => (.ok 1, (CreateTemporaryRoot w).2 ++ t ++ [.print e, .exit 1])
        | (.panic m, t) => (.panic m, (CreateTemporaryRoot w).2 ++ t)
        | (.hang, t) => (.hang, (CreateTemporaryRoot w).2 ++ t)
        | (.ok _, t) =>
          ((main.launch w root command (Args.drop 4)).1,
            (CreateTemporaryRoot w).2 ++ t ++ (main.launch w root command (Args.drop 4)).2)
      | _, _ => (.panic indexOutOfRange, (CreateTemporaryRoot w).2)
  | _, _ => (.panic indexOutOfRange, [])

/-! ## Notions used in the statements -/

/-- The trace `t` holds no run of a target command. -/
def noRun (t : List Event) : Prop := ∀ c a, Event.run c a ∉ t

/-- The number of seconds `expires_in` is one whose count of nanoseconds is
an `int64`, that is, a `time.Duration`. -/
def fitsDuration (expires_in : Int) : Prop :=
  -(2 ^ 63) ≤ expires_in * Second ∧ expires_in * Second < 2 ^ 63

instance (e : Int) : Decidable (fitsDuration e) := by
  unfold fitsDuration
  exact inferInstance

/-- File name `a` does not come after file name `b`. -/
def nameLe (a b : String) : Prop := nameLt b.data a.data = false

/-- The effects of extracting one archive: the announcement, the complete run
of `tar`, and the removal of the archive. -/
def extractSteps (w : World) (rootDir file : String) : List Event :=
  [.print ("Extracting " ++ w.join rootDir file), .tar (w.join rootDir file) rootDir,
    .remove (w.join rootDir file)]

/-- The archives extracted, in order: the paths of the `tar` runs of a trace. -/
def extractionOrder : List Event → List String
  | [] => []
  | .tar tarPath _ :: t => tarPath :: extractionOrder t
  | _ :: t => extractionOrder t

/-! ## Concrete inputs -/

def layerA : Layer := ⟨"application/vnd.oci.image.layer.v1.tar+gzip", 1024, "sha256:a"⟩
def layerB : Layer := ⟨"application/vnd.oci.image.layer.v1.tar+gzip", 2048, "sha256:b"⟩

def hostEntry : Manifest :=
  ⟨"application/vnd.oci.image.manifest.v1+json", 2, "sha256:m", 528, ⟨"arm64", "linux"⟩⟩

def otherEntry : Manifest :=
  ⟨"application/vnd.oci.image.manifest.v1+json", 2, "sha256:x", 528, ⟨"amd64", "linux"⟩⟩

/-- A host on `linux/arm64` where every external operation succeeds and the
image has the single layer `layerA`. -/
def calmWorld : World where
  newRequest := fun _ => none
  auth := fun _ _ => none
  index := fun _ =>
    .response ⟨200, "200 OK",
      .ok ⟨2, "application/vnd.oci.image.index.v1+json", [otherEntry, hostEntry], none⟩⟩
  layers := fun _ =>
    .response ⟨200, "200 OK",
      .ok ⟨2, "application/vnd.oci.image.manifest.v1+json", layerA, [layerA]⟩⟩
  blob := fun _ => .response ⟨200, "200 OK", .ok "layer bytes"⟩
  GOARCH := "arm64"
  GOOS := "linux"
  join := fun d n => d ++ "/" ++ n
  create := fun _ => none
  write := fun _ => none
  entries := fun _ => .ok ["sha256:a.tar"]
  tar := fun _ _ => none
  remove := fun _ => none
  mkdirTemp := .ok "/tmp/my_docker1"
  isAbs := fun _ => true
  abs := fun p => .ok p
  dir := fun _ => "/bin"
  mkdirAll := fun _ => none
  link := fun _ _ => none
  chroot := fun _ => none
  unshare := none
  chdir := fun _ => none
  run := fun _ _ => none

/-- As `calmWorld`, for an image whose manifest lists `layerB` and then
`layerA`, both stored in the root directory. -/
def twoLayerWorld : World :=
  { calmWorld with
    layers := fun _ =>
      .response ⟨200, "200 OK",
        .ok ⟨2, "application/vnd.oci.image.manifest.v1+json", layerA, [layerB, layerA]⟩⟩
    entries := fun _ => .ok ["sha256:b.tar", "sha256:a.tar"] }

/-- As `calmWorld`, with a registry that answers every blob request with
status 404. -/
def notFoundWorld : World :=
  { calmWorld with blob := fun _ => .response ⟨404, "404 Not Found", .ok "BLOB_UNKNOWN"⟩ }

/-- As `calmWorld`, with a target executable that cannot be linked into the
root. -/
def missingBinaryWorld : World :=
  { calmWorld with
    link := fun _ _ => some "link: no such file or directory"
    run := fun _ _ => some "fork/exec /bin/sh: no such file or directory" }

/-- As `calmWorld`, with a registry that cannot be reached for the digest
manifest. -/
def unreachableWorld : World :=
  { calmWorld with layers := fun _ => .failure "dial tcp: connection refused" }

/-- As `calmWorld`, on a host that refuses `chroot`. -/
def unprivilegedWorld : World :=
  { calmWorld with chroot := fun _ => some "operation not permitted" }

/-- An index manifest with a matching entry in `manifests` and the JSON value
`[]` for `layers`. -/
def emptyLayersIndex : ImageIndexManifest :=
  ⟨2, "application/vnd.oci.image.index.v1+json", [hostEntry], some []⟩

/-- A clock format parser that knows two instants, ten minutes apart. -/
def demoParse (s : String) : Except String Time :=
  if s = "2024-01-01T00:00:00Z" then .ok 1704067200000000000
  else if s = "2024-01-01T00:10:00Z" then .ok 1704067800000000000
  else .error "cannot parse"

def firstCredential : AuthenticationResponse := ⟨"token-1", "", 300, "2024-01-01T00:00:00Z"⟩
def secondCredential : AuthenticationResponse := ⟨"token-2", "", 300, "2024-01-01T00:10:00Z"⟩

/-- A credential whose `expires_in` (a little over 292 years) does not fit a
`time.Duration`. -/
def longCredential : AuthenticationResponse :=
  ⟨"token-3", "", 9223372037, "2024-01-01T00:00:00Z"⟩

/-- A token endpoint that answers every request with `cred`. -/
def endpointGiving (cred : AuthenticationResponse) : TokenEndpoint :=
  ⟨fun _ => none, fun _ => .ok cred⟩

/-- Go: the check of `net/url` for ASCII control characters in a URL. -/
def hasControlCharacter (url : String) : Bool :=
  url.data.any fun c => decide (c.toNat < 32) || decide (c.toNat = 127)

/-- A network whose request constructor rejects, as `net/url` does, a URL
holding a control character. -/
def endpointRejecting : TokenEndpoint :=
  ⟨fun url =>
      if hasControlCharacter url then some "net/url: invalid control character in URL"
      else none,
    fun _ => .ok firstCredential⟩

/-! # Properties

## Platform selection: claim C4 -/

theorem scan_eq_none_iff (goarch goos : String) (l : List Manifest) :
    findArchitectureSpecificDigest.scan goarch goos l = none ↔
      ∀ m ∈ l, ¬ (m.Platform.Architecture = goarch ∧ m.Platform.OS = goos) := by
  induction l with
  | nil => simp [findArchitectureSpecificDigest.scan]
  | cons a l ih =>
    by_cases h : a.Platform.Architecture = goarch ∧ a.Platform.OS = goos
    · simp only [findArchitectureSpecificDigest.scan, if_pos h]
      constructor
      · intro hc; cases hc
      · intro hc; exact absurd h (hc a (List.mem_cons_self a l))
    · simp only [findArchitectureSpecificDigest.scan, if_neg h, ih]
      constructor
      · intro hl m hm
        rcases List.mem_cons.mp hm with rfl | hm
        · exact h
        · exact hl m hm
      · intro hl m hm
        exact hl m (List.mem_cons_of_mem a hm)

theorem scan_eq_some_iff (goarch goos : String) (l : List Manifest) (d : String) :
    findArchitectureSpecificDigest.scan goarch goos l = some d ↔
      ∃ pre m post, l = pre ++ m :: post ∧
        (∀ x ∈ pre, ¬ (x.Platform.Architecture = goarch ∧ x.Platform.OS = goos)) ∧
        (m.Platform.Architecture = goarch ∧ m.Platform.OS = goos) ∧ m.Digest = d := by
  induction l with
  | nil =>
    simp only [findArchitectureSpecificDigest.scan]
    constructor
    · intro hc; cases hc
    · rintro ⟨pre, m, post, hl, -⟩
      cases pre <;> cases hl
  | cons a l ih =>
    by_cases h : a.Platform.Architecture = goarch ∧ a.Platform.OS = goos
    · simp only [findArchitectureSpecificDigest.scan, if_pos h]
      constructor
      · intro hd
        refine ⟨[], a, l, rfl, ?_, h, ?_⟩
        · intro x hx; cases hx
        · exact Option.some.inj hd
      · rintro ⟨pre, m, post, hl, hpre, -, hd⟩
        cases pre with
        | nil =>
          simp only [List.nil_append, List.cons.injEq] at hl
          rw [hl.1, hd]
        | cons x pre =>
          simp only [List.cons_append, List.cons.injEq] at hl
          exact absurd (hl.1 ▸ h) (hpre x (List.mem_cons_self x pre))
    · simp only [findArchitectureSpecificDigest.scan, if_neg h, ih]
      constructor
      · rintro ⟨pre, m, post, hl, hpre, hm, hd⟩
        refine ⟨a :: pre, m, post, by rw [hl]; rfl, ?_, hm, hd⟩
        intro x hx
        rcases List.mem_cons.mp hx with rfl | hx
        · exact h
        · exact hpre x hx
      · rintro ⟨pre, m, post, hl, hpre, hm, hd⟩
        cases pre with
        | nil =>
          simp only [List.nil_append, List.cons.injEq] at hl
          exact absurd (hl.1 ▸ hm) h
        | cons x pre =>
          simp only [List.cons_append, List.cons.injEq] at hl
          exact ⟨pre, m, post, hl.2, fun y hy => hpre y (List.mem_cons_of_mem x hy), hm, hd⟩

/-- C4: `findArchitectureSpecificDigest` returns an error exactly when no entry
of `manifests` has the architecture and the operating system of the host, and
otherwise returns the digest of the first entry, in list order, whose
architecture and operating system both equal the host's: the entries before
the chosen one do not match and the chosen one does. -/
theorem C4_findArchitectureSpecificDigest_first_match (goarch goos : String)
    (manifest : ImageIndexManifest) :
    ((∃ e, findArchitectureSpecificDigest goarch goos manifest = .error e) ↔
      ∀ m ∈ manifest.Manifest,
        ¬ (m.Platform.Architecture = goarch ∧ m.Platform.OS = goos)) ∧
    (∀ d, findArchitectureSpecificDigest goarch goos manifest = .ok d ↔
      ∃ pre m post, manifest.Manifest = pre ++ m :: post ∧
        (∀ x ∈ pre, ¬ (x.Platform.Architecture = goarch ∧ x.Platform.OS = goos)) ∧
        (m.Platform.Architecture = goarch ∧ m.Platform.OS = goos) ∧ m.Digest = d) := by
  constructor
  · rw [← scan_eq_none_iff]
    unfold findArchitectureSpecificDigest
    cases hs : findArchitectureSpecificDigest.scan goarch goos manifest.Manifest with
    | none => simp
    | some d => simp
  · intro d
    rw [← scan_eq_some_iff]
    unfold findArchitectureSpecificDigest
    cases hs : findArchitectureSpecificDigest.scan goarch goos manifest.Manifest with
    | none => simp
    | some d' => simp

/-! ## Scope names: claim C9 -/

/-- C9 (as stated, refuted): `String` is not defined on every value of
`IMAGESCOPE`: on the value 3 the index is out of range. -/
theorem C9_String_undefined_outside_constants : IMAGESCOPE.String 3 = none := by
  decide

/-- C9 (amended): on the three declared constants `String` returns the wire
form (`pull`, `push`, `pull,push`), the three results are pairwise distinct,
and `String` is defined on exactly these three values of `IMAGESCOPE`. -/
theorem C9_String_on_declared_constants :
    IMAGESCOPE.String PULL = some "pull" ∧
    IMAGESCOPE.String PUSH = some "push" ∧
    IMAGESCOPE.String PULLPUSH = some "pull,push" ∧
    IMAGESCOPE.String PULL ≠ IMAGESCOPE.String PUSH ∧
    IMAGESCOPE.String PULL ≠ IMAGESCOPE.String PULLPUSH ∧
    IMAGESCOPE.String PUSH ≠ IMAGESCOPE.String PULLPUSH ∧
    (∀ i : IMAGESCOPE, (IMAGESCOPE.String i).isSome = true ↔
      (i = PULL ∨ i = PUSH ∨ i = PULLPUSH)) := by
  refine ⟨by decide, by decide, by decide, by decide, by decide, by decide, ?_⟩
  intro i
  unfold IMAGESCOPE.String PULL PUSH PULLPUSH
  by_cases h : 0 ≤ i
  · obtain ⟨n, rfl⟩ := Int.eq_ofNat_of_zero_le h
    simp only [h, if_true, Int.toNat_ofNat]
    match n with
    | 0 => simp
    | 1 => simp
    | 2 => simp
    | n + 3 =>
      simp
      change ¬((n : Int) + 3 = 0) ∧ ¬((n : Int) + 3 = 1) ∧ ¬((n : Int) + 3 = 2)
      omega
  · simp only [h, if_false]
    simp
    refine ⟨?_, ?_, ?_⟩ <;> intro hi <;> rw [hi] at h <;> exact h (by decide)

/-! ## The pull never runs the target command -/

theorem noRun_append {s t : List Event} (hs : noRun s) (ht : noRun t) : noRun (s ++ t) := by
  intro c a h
  rcases List.mem_append.mp h with h | h
  · exact hs c a h
  · exact ht c a h

theorem noRun_cons {e : Event} {t : List Event} (he : ∀ c a, e ≠ Event.run c a)
    (ht : noRun t) : noRun (e :: t) := by
  intro c a h
  rcases List.mem_cons.mp h with h | h
  · exact he c a h.symm
  · exact ht c a h

theorem noRun_nil : noRun [] := by
  intro c a h
  cases h

theorem getIndexManifest_noRun (w : World) (image tag : String) :
    noRun (getIndexManifest w image tag).2 := by
  intro c a
  unfold getIndexManifest
  repeat' split
  all_goals simp

theorem getLayers_noRun (w : World) (image digest : String) :
    noRun (getLayers w image digest).2 := by
  intro c a
  unfold getLayers
  repeat' split
  all_goals simp

theorem downloadLayer_noRun (w : World) (image rootDir digest : String) :
    noRun (downloadLayer w image rootDir digest).2 := by
  intro c a
  unfold downloadLayer
  repeat' split
  all_goals simp

theorem imageLayers_noRun (w : World) (image : String) (manifest : ImageIndexManifest) :
    noRun (Pull.imageLayers w image manifest).2 := by
  unfold Pull.imageLayers
  split
  · split
    · exact noRun_nil
    · exact getLayers_noRun w image _
  · exact noRun_nil

theorem wait_noRun (sched : Nat → Nat) (n k : Nat) (senders : List (List (Option String))) :
    noRun (Pull.wait sched n k senders).2 := by
  induction n generalizing k senders with
  | zero => exact noRun_nil
  | succ n ih =>
    unfold Pull.wait
    split
    · exact noRun_cons (by intro c a h; cases h) noRun_nil
    · exact noRun_cons (by intro c a h; cases h) noRun_nil
    · exact noRun_cons (by intro c a h; cases h) (ih _ _)

theorem fanOut_noRun (w : World) (sched : Nat → Nat) (image path : String) (total : Nat)
    (layers : List Layer) (k : Nat) (senders : List (List (Option String))) :
    noRun (Pull.fanOut w sched image path total layers k senders).2 := by
  induction layers generalizing k senders with
  | nil => exact noRun_nil
  | cons layer rest ih =>
    unfold Pull.fanOut
    have hw := wait_noRun sched total k
      (senders ++ [goroutineSends (downloadLayer w image path layer.Digest).1])
    have hd := downloadLayer_noRun w image path layer.Digest
    split
    all_goals rename_i heq
    all_goals rw [heq] at hw
    · exact noRun_cons (by intro c a h; cases h) (noRun_append (noRun_append hd hw) (ih _ _))
    · exact noRun_cons (by intro c a h; cases h) (noRun_append hd hw)
    · exact noRun_cons (by intro c a h; cases h) (noRun_append hd hw)
    · exact noRun_cons (by intro c a h; cases h) (noRun_append hd hw)

theorem extractLoop_noRun (w : World) (rootDir : String) (files : List String) :
    noRun (extractTar.loop w rootDir files).2 := by
  induction files with
  | nil => exact noRun_nil
  | cons file rest ih =>
    unfold extractTar.loop
    split
    · split
      · intro c a; simp
      · split
        · intro c a; simp
        · exact noRun_append (by intro c a; simp) ih
    · exact ih

theorem extractTar_noRun (w : World) (rootDir : String) : noRun (extractTar w rootDir).2 := by
  unfold extractTar
  split
  · intro c a; simp
  · exact noRun_cons (by intro c a h; cases h) (extractLoop_noRun w rootDir _)

theorem andThen_noRun {α β : Type} (r : Traced α) (f : α → Traced β) (hr : noRun r.2)
    (hf : ∀ a, noRun (f a).2) : noRun (r.andThen f).2 := by
  unfold Traced.andThen
  split
  · exact noRun_append hr (hf _)
  · exact hr
  · exact hr
  · exact hr

theorem Pull_noRun (w : World) (sched : Nat → Nat) (image tag path : String) :
    noRun (Pull w sched image tag path).2 := by
  unfold Pull
  refine andThen_noRun _ _ (getIndexManifest_noRun w image tag) fun manifest => ?_
  refine andThen_noRun _ _ (imageLayers_noRun w image manifest) fun imageLayers => ?_
  refine andThen_noRun _ _ (fanOut_noRun w sched image path _ _ _ _) fun _ => ?_
  exact extractTar_noRun w path

theorem CopyIntoRoot_noRun (w : World) (root entrypoint : String) :
    noRun (CopyIntoRoot w root entrypoint).2 := by
  intro c a
  unfold CopyIntoRoot
  repeat' split
  all_goals simp

/-! ## The isolation sequence: claim C8 -/

theorem IsolateRoot_noRun (w : World) (path : String) : noRun (IsolateRoot w path).2 := by
  intro c a
  unfold IsolateRoot
  repeat' split
  all_goals simp

theorem IsolateRoot_trace_of_success (w : World) (path : String)
    (h : (IsolateRoot w path).1 = none) :
    (IsolateRoot w path).2 = [.chroot path, .unshare, .chdir "/"] ∧
      w.chroot path = none ∧ w.unshare = none ∧ w.chdir "/" = none := by
  unfold IsolateRoot at h ⊢
  cases h1 : w.chroot path with
  | some e => simp [h1] at h
  | none =>
    cases h2 : w.unshare with
    | some e => simp [h1, h2] at h
    | none =>
      simp only [h1, h2] at h ⊢
      simp [h]

theorem launch_run_only_isolated (w : World) (root command : String) (args : List String)
    (c : String) (a : List String) (h : Event.run c a ∈ (main.launch w root command args).2) :
    (IsolateRoot w root).1 = none ∧
      (main.launch w root command args).2 = (CopyIntoRoot w root command).2 ++
        [.chroot root, .unshare, .chdir "/", .print (runningLine c a), .run c a, .exit 0] := by
  unfold main.launch at h ⊢
  cases hi : (IsolateRoot w root).1 with
  | some e =>
    simp only [hi] at h
    rcases List.mem_append.mp h with h | h
    · rcases List.mem_append.mp h with h | h
      · exact absurd h (CopyIntoRoot_noRun w root command c a)
      · exact absurd h (IsolateRoot_noRun w root c a)
    · simp at h
  | none =>
    simp only [hi] at h ⊢
    have ht := (IsolateRoot_trace_of_success w root hi).1
    rcases List.mem_append.mp h with h | h
    · rcases List.mem_append.mp h with h | h
      · exact absurd h (CopyIntoRoot_noRun w root command c a)
      · exact absurd h (IsolateRoot_noRun w root c a)
    · have h' : c = command ∧ a = args := by simpa using h
      obtain ⟨rfl, rfl⟩ := h'
      rw [ht]
      simp

/-- C8: `IsolateRoot` performs chroot, then the creation of the PID
namespace, then chdir to `/`, in that order: its effects are an initial
segment of these three steps, it returns the error of the first step that
fails and performs no later step, and it returns no error exactly when the
three steps all succeeded. `main` runs the target command only then: whenever
a run of a command occurs in the effects of `main`, `IsolateRoot` returned no
error on the root, the three steps succeeded, and they come, in order, right
before the run. -/
theorem C8_isolation_ordered_and_gates_execution (w : World) :
    (∀ path, ∃ rest, (IsolateRoot w path).2 ++ rest = [.chroot path, .unshare, .chdir "/"]) ∧
    (∀ path e, w.chroot path = some e → IsolateRoot w path = (some e, [.chroot path])) ∧
    (∀ path e, w.chroot path = none → w.unshare = some e →
      IsolateRoot w path = (some e, [.chroot path, .unshare])) ∧
    (∀ path, w.chroot path = none → w.unshare = none →
      IsolateRoot w path = (w.chdir "/", [.chroot path, .unshare, .chdir "/"])) ∧
    (∀ path, (IsolateRoot w path).1 = none ↔
      (w.chroot path = none ∧ w.unshare = none ∧ w.chdir "/" = none)) ∧
    (∀ sched Args c a, Event.run c a ∈ (main w sched Args).2 →
      ∃ root pre, w.mkdirTemp = .ok root ∧ (IsolateRoot w root).1 = none ∧
        w.chroot root = none ∧ w.unshare = none ∧ w.chdir "/" = none ∧
        (main w sched Args).2 = pre ++
          [.chroot root, .unshare, .chdir "/", .print (runningLine c a), .run c a, .exit 0]) := by
  refine ⟨?_, ?_, ?_, ?_, ?_, ?_⟩
  · intro path
    unfold IsolateRoot
    cases w.chroot path with
    | some e => exact ⟨[.unshare, .chdir "/"], rfl⟩
    | none =>
      cases w.unshare with
      | some e => exact ⟨[.chdir "/"], rfl⟩
      | none => exact ⟨[], rfl⟩
  · intro path e h
    simp [IsolateRoot, h]
  · intro path e h1 h2
    simp [IsolateRoot, h1, h2]
  · intro path h1 h2
    simp [IsolateRoot, h1, h2]
  · intro path
    constructor
    · intro h
      exact (IsolateRoot_trace_of_success w path h).2
    · rintro ⟨h1, h2, h3⟩
      simp [IsolateRoot, h1, h2, h3]
  · intro sched Args c a h
    unfold main at h ⊢
    split at h
    · rename_i image_tag command h2 h3
      cases hroot : w.mkdirTemp with
      | error e =>
        simp [CreateTemporaryRoot, hroot] at h
      | ok root =>
        simp only [CreateTemporaryRoot, hroot] at h ⊢
        split at h
        · rename_i image tag hi ht
          have hp := Pull_noRun w sched image tag root
          cases hpull : Pull w sched image tag root with
          | mk r t =>
            rw [hpull] at hp
            cases r with
            | err e =>
              simp only [hpull] at h
              simp only [List.mem_append, List.mem_cons, List.mem_singleton] at h
              rcases h with (h | h) | h
              · rcases h with h | h
                · cases h
                · cases h
              · exact absurd h (hp c a)
              · rcases h with h | h | h
                · cases h
                · cases h
                · cases h
            | panic m =>
              simp only [hpull] at h
              simp only [List.mem_append, List.mem_cons, List.mem_singleton] at h
              rcases h with (h | h) | h
              · cases h
              · cases h
              · exact absurd h (hp c a)
            | hang =>
              simp only [hpull] at h
              simp only [List.mem_append, List.mem_cons, List.mem_singleton] at h
              rcases h with (h | h) | h
              · cases h
              · cases h
              · exact absurd h (hp c a)
            | ok u =>
              simp only [hpull] at h ⊢
              have hl : Event.run c a ∈ (main.launch w root command (List.drop 4 Args)).2 := by
                simp only [List.mem_append, List.mem_cons, List.mem_singleton] at h
                rcases h with (h | h) | h
                · rcases h with h | h
                  · cases h
                  · cases h
                · exact absurd h (hp c a)
                · exact h
              obtain ⟨hiso, htrace⟩ := launch_run_only_isolated w root command _ c a hl
              obtain ⟨-, h1, h2, h3⟩ := IsolateRoot_trace_of_success w root hiso
              refine ⟨root, [Event.mkdirTemp] ++ t ++ (CopyIntoRoot w root command).2, rfl, hiso,
                h1, h2, h3, ?_⟩
              rw [htrace]
              simp
        · simp at h
    · simp at h

/-! ## The credential cache: lemmas for claim C1 -/

theorem wrapInt64_of_fits (x : Int) (h1 : -(2 ^ 63) ≤ x) (h2 : x < 2 ^ 63) :
    wrapInt64 x = x := by
  unfold wrapInt64
  rw [Int.emod_eq_of_lt (by omega) (by omega)]
  omega

theorem expiresAt_of_fits (t e : Int) (h : fitsDuration e) : expiresAt t e = t + e * Second := by
  unfold fitsDuration Second at h
  unfold expiresAt expiresDuration
  have he : wrapInt64 e = e := wrapInt64_of_fits e (by omega) (by omega)
  rw [he]
  unfold Second
  rw [wrapInt64_of_fits _ h.1 h.2]

theorem authenticate_built (net : TokenEndpoint) (image : String) (scope : IMAGESCOPE)
    (s : String) (hs : IMAGESCOPE.String scope = some s)
    (hreq : net.newRequest (tokenURL image s) = none) :
    authenticate net image scope =
      (match net.token (tokenURL image s) with
        | .error e => (.err e, 1)
        | .ok r => (.ok r, 1)) := by
  simp [authenticate, hs, hreq]

theorem refresh_requests (net : TokenEndpoint) (c : Cache) (image : String)
    (scope : IMAGESCOPE) (s : String) (hs : IMAGESCOPE.String scope = some s)
    (hreq : net.newRequest (tokenURL image s) = none) :
    (Authenticate.refresh net c image scope).requests = 1 := by
  unfold Authenticate.refresh
  rw [authenticate_built net image scope s hs hreq]
  cases net.token (tokenURL image s) <;> rfl

theorem refresh_ok (net : TokenEndpoint) (c : Cache) (image : String)
    (scope : IMAGESCOPE) (s : String) (hs : IMAGESCOPE.String scope = some s)
    (hreq : net.newRequest (tokenURL image s) = none) (cred : AuthenticationResponse)
    (htok : net.token (tokenURL image s) = .ok cred) :
    Authenticate.refresh net c image scope =
      { result := .ok (), cache := c.insert ⟨image, scope⟩ cred,
        header := some ("Bearer " ++ cred.Token), requests := 1 } := by
  unfold Authenticate.refresh
  rw [authenticate_built net image scope s hs hreq, htok]

theorem Authenticate_requests_le_one (parseTime : String → Except String Time)
    (net : TokenEndpoint) (now : Time) (c : Cache) (image : String) (scope : IMAGESCOPE) :
    (Authenticate parseTime net now c image scope).requests ≤ 1 := by
  have hr : ∀ c', (Authenticate.refresh net c' image scope).requests ≤ 1 := by
    intro c'
    unfold Authenticate.refresh authenticate
    cases hs : IMAGESCOPE.String scope with
    | none => simp
    | some s =>
      cases hq : net.newRequest (tokenURL image s) with
      | some e => simp [hq]
      | none => cases ht : net.token (tokenURL image s) <;> simp [hq, ht]
  unfold Authenticate
  repeat' split
  all_goals first | exact hr _ | simp

theorem Cache.insert_same (c : Cache) (k : imageRequest) (v : AuthenticationResponse) :
    c.insert k v k = some v := by
  simp [Cache.insert]

theorem Authenticate_of_request (parseTime : String → Except String Time)
    (net : TokenEndpoint) (now : Time) (c : Cache) (image : String) (scope : IMAGESCOPE)
    (h : (Authenticate parseTime net now c image scope).requests = 1) :
    ∃ c', Authenticate parseTime net now c image scope =
      Authenticate.refresh net c' image scope := by
  unfold Authenticate at h ⊢
  cases hc : c ⟨image, scope⟩ with
  | none => exact ⟨c, rfl⟩
  | some cached =>
    simp only [hc] at h ⊢
    cases hp : parseTime cached.Issued_at with
    | error e => simp [hp] at h
    | ok issued =>
      simp only [hp] at h ⊢
      by_cases hn : now > expiresAt issued cached.Expires_in
      · simp only [hn, if_true]
        exact ⟨_, rfl⟩
      · simp [hn] at h

theorem Authenticate_hit (parseTime : String → Except String Time)
    (net : TokenEndpoint) (now : Time) (c : Cache) (image : String) (scope : IMAGESCOPE)
    (cred : AuthenticationResponse) (issued : Time) (hc : c ⟨image, scope⟩ = some cred)
    (hp : parseTime cred.Issued_at = .ok issued) (hf : fitsDuration cred.Expires_in)
    (hn : ¬ now > issued + cred.Expires_in * Second) :
    Authenticate parseTime net now c image scope =
      { result := .ok (), cache := c, header := some ("Bearer " ++ cred.Token),
        requests := 0 } := by
  unfold Authenticate
  simp only [hc, hp, expiresAt_of_fits issued _ hf, hn, if_false]

theorem Authenticate_expired (parseTime : String → Except String Time)
    (net : TokenEndpoint) (now : Time) (c : Cache) (image : String) (scope : IMAGESCOPE)
    (cred : AuthenticationResponse) (issued : Time) (hc : c ⟨image, scope⟩ = some cred)
    (hp : parseTime cred.Issued_at = .ok issued) (hf : fitsDuration cred.Expires_in)
    (hn : now > issued + cred.Expires_in * Second) :
    Authenticate parseTime net now c image scope =
      Authenticate.refresh net (c.delete ⟨image, scope⟩) image scope := by
  unfold Authenticate
  simp only [hc, hp, expiresAt_of_fits issued _ hf, hn, if_true]

/-- C1 (amended): for every key `(image, scope)` whose token request can be
built (the scope is one of the declared constants, so that `String` is
defined, and the request constructor accepts the token URL) and every held
credential whose `expires_in` fits a `time.Duration`: `Authenticate` sends at
most one token request, and sends one exactly when the cache holds no entry
for the key or the held entry has `now > issuedAt + expiresIn`. When a first
call fetches a credential, a second call within its validity window sends no
request and attaches the cached token (one request in total), and a later
call after `issuedAt + expiresIn` whose token request succeeds sends a new
request and replaces the cached credential of the key by the new one. -/
theorem C1_token_request_exactly_on_miss_or_expiry
    (parseTime : String → Except String Time) (image : String) (scope : IMAGESCOPE)
    (s : String) (hs : IMAGESCOPE.String scope = some s) :
    (∀ (net : TokenEndpoint) (now : Time) (c : Cache),
      net.newRequest (tokenURL image s) = none →
      (∀ cached, c ⟨image, scope⟩ = some cached → fitsDuration cached.Expires_in) →
      (Authenticate parseTime net now c image scope).requests ≤ 1 ∧
      ((Authenticate parseTime net now c image scope).requests = 1 ↔
        (c ⟨image, scope⟩ = none ∨
          ∃ cached issued, c ⟨image, scope⟩ = some cached ∧
            parseTime cached.Issued_at = .ok issued ∧
            now > issued + cached.Expires_in * Second))) ∧
    (∀ (net₁ net₂ net₃ : TokenEndpoint) (now₁ now₂ now₃ : Time) (c : Cache)
      (cred cred' : AuthenticationResponse) (issued : Time),
      net₁.newRequest (tokenURL image s) = none →
      (Authenticate parseTime net₁ now₁ c image scope).requests = 1 →
      net₁.token (tokenURL image s) = .ok cred →
      parseTime cred.Issued_at = .ok issued →
      fitsDuration cred.Expires_in →
      ¬ now₂ > issued + cred.Expires_in * Second →
      now₃ > issued + cred.Expires_in * Second →
      net₃.newRequest (tokenURL image s) = none →
      net₃.token (tokenURL image s) = .ok cred' →
      (Authenticate parseTime net₁ now₁ c image scope).cache ⟨image, scope⟩ = some cred ∧
      (Authenticate parseTime net₂ now₂
        (Authenticate parseTime net₁ now₁ c image scope).cache image scope).requests = 0 ∧
      (Authenticate parseTime net₁ now₁ c image scope).requests +
        (Authenticate parseTime net₂ now₂
          (Authenticate parseTime net₁ now₁ c image scope).cache image scope).requests = 1 ∧
      (Authenticate parseTime net₂ now₂
        (Authenticate parseTime net₁ now₁ c image scope).cache image scope).result = .ok () ∧
      (Authenticate parseTime net₂ now₂
        (Authenticate parseTime net₁ now₁ c image scope).cache image scope).header =
          some ("Bearer " ++ cred.Token) ∧
      (Authenticate parseTime net₂ now₂
        (Authenticate parseTime net₁ now₁ c image scope).cache image scope).cache =
          (Authenticate parseTime net₁ now₁ c image scope).cache ∧
      (Authenticate parseTime net₃ now₃
        (Authenticate parseTime net₁ now₁ c image scope).cache image scope).requests = 1 ∧
      (Authenticate parseTime net₃ now₃
        (Authenticate parseTime net₁ now₁ c image scope).cache image scope).cache
          ⟨image, scope⟩ = some cred' ∧
      (Authenticate parseTime net₃ now₃
        (Authenticate parseTime net₁ now₁ c image scope).cache image scope).header =
          some ("Bearer " ++ cred'.Token)) := by
  constructor
  · intro net now c hreq hfit
    refine ⟨Authenticate_requests_le_one parseTime net now c image scope, ?_⟩
    unfold Authenticate
    cases hc : c ⟨image, scope⟩ with
    | none =>
      simp only [refresh_requests net c image scope s hs hreq, true_or]
    | some cached =>
      have hf := hfit cached hc
      cases hp : parseTime cached.Issued_at with
      | error e => simp [hp]
      | ok issued =>
        simp only [hp, expiresAt_of_fits issued _ hf]
        by_cases hn : now > issued + cached.Expires_in * Second
        · simp only [hn, if_true, refresh_requests net _ image scope s hs hreq, true_iff]
          exact Or.inr ⟨cached, issued, rfl, hp, hn⟩
        · simp only [hn, if_false]
          constructor
          · intro h; cases h
          · rintro (h | ⟨cached', issued', h1, h2, h3⟩)
            · cases h
            · cases h1
              rw [hp] at h2
              cases h2
              exact absurd h3 hn
  · intro net₁ net₂ net₃ now₁ now₂ now₃ c cred cred' issued hreq₁ hone htok₁ hp hf hin hout
      hreq₃ htok₃
    obtain ⟨c', hc'⟩ := Authenticate_of_request parseTime net₁ now₁ c image scope hone
    rw [hc', refresh_ok net₁ c' image scope s hs hreq₁ cred htok₁]
    have hlook : (c'.insert ⟨image, scope⟩ cred) ⟨image, scope⟩ = some cred :=
      Cache.insert_same _ _ _
    simp only []
    rw [Authenticate_hit parseTime net₂ now₂ _ image scope cred issued hlook hp hf hin,
      Authenticate_expired parseTime net₃ now₃ _ image scope cred issued hlook hp hf hout,
      refresh_ok net₃ _ image scope s hs hreq₃ cred' htok₃]
    exact ⟨hlook, rfl, rfl, rfl, rfl, rfl, rfl, Cache.insert_same _ _ _, rfl⟩

/-! ## Directory order and extraction: lemmas for claim C5 -/

theorem nameLt_nil_right (c : List Char) : nameLt c [] = false := by
  cases c <;> rfl

theorem nameLt_cons (x y : Char) (a b : List Char) :
    nameLt (x :: a) (y :: b) =
      if x.toNat < y.toNat then true else if x.toNat = y.toNat then nameLt a b else false := by
  rfl

theorem nameLt_asymm (a b : List Char) (h : nameLt a b = true) : nameLt b a = false := by
  induction a generalizing b with
  | nil => exact nameLt_nil_right b
  | cons x a ih =>
    cases b with
    | nil => rw [nameLt_nil_right] at h; cases h
    | cons y b =>
      rw [nameLt_cons] at h ⊢
      by_cases h1 : x.toNat < y.toNat
      · rw [if_neg (by omega), if_neg (by omega)]
      · by_cases h4 : x.toNat = y.toNat
        · rw [if_neg h1, if_pos h4] at h
          rw [if_neg (by omega), if_pos h4.symm]
          exact ih b h
        · rw [if_neg h1, if_neg h4] at h
          cases h

theorem nameLt_false_trans (a b c : List Char) (hab : nameLt b a = false)
    (hbc : nameLt c b = false) : nameLt c a = false := by
  induction a generalizing b c with
  | nil => exact nameLt_nil_right c
  | cons x a ih =>
    cases b with
    | nil => cases hab
    | cons y b =>
      cases c with
      | nil => cases hbc
      | cons z c =>
        rw [nameLt_cons] at hab hbc ⊢
        by_cases h1 : y.toNat < x.toNat
        · rw [if_pos h1] at hab
          cases hab
        · rw [if_neg h1] at hab
          by_cases h3 : z.toNat < y.toNat
          · rw [if_pos h3] at hbc
            cases hbc
          · rw [if_neg h3] at hbc
            by_cases h2 : y.toNat = x.toNat
            · rw [if_pos h2] at hab
              by_cases h4 : z.toNat = y.toNat
              · rw [if_pos h4] at hbc
                rw [if_neg (by omega), if_pos (by omega)]
                exact ih b c hab hbc
              · rw [if_neg (by omega), if_neg (by omega)]
            · rw [if_neg (by omega), if_neg (by omega)]

theorem mem_insertName (a x : String) (l : List String) :
    x ∈ insertName a l ↔ x = a ∨ x ∈ l := by
  induction l with
  | nil => simp [insertName]
  | cons b l ih =>
    unfold insertName
    split
    · simp only [List.mem_cons, ih]
      tauto
    · simp only [List.mem_cons]

theorem insertName_sorted (a : String) (l : List String) (h : l.Pairwise nameLe) :
    (insertName a l).Pairwise nameLe := by
  induction l with
  | nil => simp [insertName]
  | cons b l ih =>
    obtain ⟨hb, hl⟩ := List.pairwise_cons.mp h
    unfold insertName
    split
    · rename_i hlt
      refine List.pairwise_cons.mpr ⟨?_, ih hl⟩
      intro x hx
      rcases (mem_insertName a x l).mp hx with rfl | hx
      · exact nameLt_asymm _ _ hlt
      · exact hb x hx
    · rename_i hlt
      have hab : nameLe a b := by
        unfold nameLe
        cases hv : nameLt b.data a.data with
        | true => exact absurd hv hlt
        | false => rfl
      refine List.pairwise_cons.mpr ⟨?_, h⟩
      intro x hx
      rcases List.mem_cons.mp hx with rfl | hx
      · exact hab
      · exact nameLt_false_trans _ _ _ hab (hb x hx)

theorem insertName_perm (a : String) (l : List String) : (insertName a l).Perm (a :: l) := by
  induction l with
  | nil => exact List.Perm.refl _
  | cons b l ih =>
    unfold insertName
    split
    · exact ((List.perm_cons b).mpr ih).trans (List.Perm.swap a b l)
    · exact List.Perm.refl _

theorem sortNames_sorted (l : List String) : (sortNames l).Pairwise nameLe := by
  induction l with
  | nil => exact List.Pairwise.nil
  | cons a l ih => exact insertName_sorted a _ ih

theorem sortNames_perm (l : List String) : (sortNames l).Perm l := by
  induction l with
  | nil => exact List.Perm.refl _
  | cons a l ih => exact (insertName_perm a _).trans ((List.perm_cons a).mpr ih)

theorem extractLoop_initial_segment (w : World) (rootDir : String) (files : List String) :
    ∃ rest, (extractTar.loop w rootDir files).2 ++ rest =
      (files.filter fun f => HasSuffix f ".tar").flatMap (extractSteps w rootDir) := by
  induction files with
  | nil => exact ⟨[], rfl⟩
  | cons file files ih =>
    obtain ⟨rest, hrest⟩ := ih
    unfold extractTar.loop
    by_cases hsuf : HasSuffix file ".tar" = true
    · simp only [hsuf, if_true, List.filter_cons_of_pos, List.flatMap_cons]
      cases ht : w.tar (w.join rootDir file) rootDir with
      | some e =>
        refine ⟨.remove (w.join rootDir file) ::
          (files.filter fun f => HasSuffix f ".tar").flatMap (extractSteps w rootDir), ?_⟩
        simp [extractSteps]
      | none =>
        cases hr : w.remove (w.join rootDir file) with
        | some e =>
          refine ⟨(files.filter fun f => HasSuffix f ".tar").flatMap (extractSteps w rootDir), ?_⟩
          simp [extractSteps]
        | none =>
          refine ⟨rest, ?_⟩
          simp only [extractSteps, List.append_assoc, hrest]
    · rw [if_neg hsuf, List.filter_cons_of_neg (by simpa using hsuf)]
      exact ⟨rest, hrest⟩

theorem extractLoop_complete (w : World) (rootDir : String) (files : List String)
    (h : ∀ f ∈ files, HasSuffix f ".tar" = true →
      w.tar (w.join rootDir f) rootDir = none ∧ w.remove (w.join rootDir f) = none) :
    extractTar.loop w rootDir files =
      (.ok (), (files.filter fun f => HasSuffix f ".tar").flatMap (extractSteps w rootDir)) := by
  induction files with
  | nil => rfl
  | cons file files ih =>
    have ih' := ih fun f hf => h f (List.mem_cons_of_mem file hf)
    unfold extractTar.loop
    by_cases hsuf : HasSuffix file ".tar" = true
    · obtain ⟨ht, hr⟩ := h file (List.mem_cons_self file files) hsuf
      simp only [hsuf, if_true, ht, hr, ih', List.filter_cons_of_pos, List.flatMap_cons,
        extractSteps]
    · rw [if_neg hsuf, List.filter_cons_of_neg (by simpa using hsuf)]
      exact ih'

/-! ## Authenticator: claim C1 -/

/-- C1 (as stated, refuted): three keys and cache states at which the token
endpoint is not contacted exactly on a miss or an expiry. A held credential
with `expires_in = 9223372037` is refreshed one second after `issued_at`,
inside its validity window; on an empty cache the key with scope 3 faults
before any request; and a key whose image name ends in a line feed, so that
the request constructor rejects the token URL, returns that error without
any request. -/
theorem C1_contact_not_exactly_on_miss_or_expiry :
    (demoParse longCredential.Issued_at = .ok 1704067200000000000 ∧
      ¬ (1704067201000000000 > 1704067200000000000 + longCredential.Expires_in * Second) ∧
      (Authenticate demoParse (endpointGiving firstCredential) 1704067201000000000
        (Cache.empty.insert ⟨"alpine", PULL⟩ longCredential) "alpine" PULL).requests = 1) ∧
    (Cache.empty ⟨"alpine", 3⟩ = none ∧
      (Authenticate demoParse (endpointGiving firstCredential) 1704067201000000000
        Cache.empty "alpine" 3).requests = 0 ∧
      (Authenticate demoParse (endpointGiving firstCredential) 1704067201000000000
        Cache.empty "alpine" 3).result = .panic indexOutOfRange) ∧
    (Cache.empty ⟨"alpine\n", PULL⟩ = none ∧
      (Authenticate demoParse endpointRejecting 1704067201000000000
        Cache.empty "alpine\n" PULL).requests = 0 ∧
      (Authenticate demoParse endpointRejecting 1704067201000000000
        Cache.empty "alpine\n" PULL).result =
          .err "net/url: invalid control character in URL") := by
  decide

/-- C1 (amended), at a concrete input: an empty cache, a first call at
`issued_at`, a second call 300 seconds later (the last instant of the
window) and a third call one nanosecond after that. -/
theorem C1_token_request_exactly_on_miss_or_expiry_witness :
    IMAGESCOPE.String PULL = some "pull" ∧
    ((Authenticate demoParse (endpointGiving firstCredential) 1704067200000000000
        Cache.empty "alpine" PULL).requests = 1 ↔
      (Cache.empty ⟨"alpine", PULL⟩ = none ∨
        ∃ cached issued, Cache.empty ⟨"alpine", PULL⟩ = some cached ∧
          demoParse cached.Issued_at = .ok issued ∧
          1704067200000000000 > issued + cached.Expires_in * Second)) ∧
    (Authenticate demoParse (endpointGiving secondCredential) 1704067500000000000
      (Authenticate demoParse (endpointGiving firstCredential) 1704067200000000000
        Cache.empty "alpine" PULL).cache "alpine" PULL).requests = 0 ∧
    (Authenticate demoParse (endpointGiving secondCredential) 1704067500000000001
      (Authenticate demoParse (endpointGiving firstCredential) 1704067200000000000
        Cache.empty "alpine" PULL).cache "alpine" PULL).cache ⟨"alpine", PULL⟩ =
          some secondCredential :=
  ⟨by decide,
    ((C1_token_request_exactly_on_miss_or_expiry demoParse "alpine" PULL "pull"
      (by decide)).1 (endpointGiving firstCredential) 1704067200000000000 Cache.empty
      (by decide) (by intro cached h; cases h)).2,
    ((C1_token_request_exactly_on_miss_or_expiry demoParse "alpine" PULL "pull"
      (by decide)).2 (endpointGiving firstCredential) (endpointGiving secondCredential)
      (endpointGiving secondCredential) 1704067200000000000 1704067500000000000
      1704067500000000001 Cache.empty firstCredential secondCredential 1704067200000000000
      (by decide) (by decide) (by decide) (by decide) (by decide) (by decide) (by decide)
      (by decide) (by decide)).2.1,
    ((C1_token_request_exactly_on_miss_or_expiry demoParse "alpine" PULL "pull"
      (by decide)).2 (endpointGiving firstCredential) (endpointGiving secondCredential)
      (endpointGiving secondCredential) 1704067200000000000 1704067500000000000
      1704067500000000001 Cache.empty firstCredential secondCredential 1704067200000000000
      (by decide) (by decide) (by decide) (by decide) (by decide) (by decide) (by decide)
      (by decide) (by decide)).2.2.2.2.2.2.2.1⟩

/-! ## Fan-out and fan-in: claim C2 -/

theorem receive_single (choice : Nat) (msg : Option String) (q : List (Option String)) :
    receive choice [msg :: q] = some (msg, [q]) := by
  simp [receive, ready, List.range, List.range.loop, Nat.mod_one]

theorem receive_drained (choice : Nat) : receive choice [[]] = none := by
  simp [receive, ready, List.range, List.range.loop]

/-- With two layers or more, the first round of the outer loop already waits
for `len(*imageLayers)` values while a single goroutine runs: a successful
first download leaves `Pull` blocked on the second receive, a failed one makes
it return that error. No later goroutine is started in either case. -/
theorem fanOut_two_or_more (w : World) (sched : Nat → Nat) (image path : String)
    (first second : Layer) (rest : List Layer) :
    Pull.fanOut w sched image path (first :: second :: rest).length
        (first :: second :: rest) 0 [] =
      match (downloadLayer w image path first.Digest).1 with
      | none =>
        (.hang, .spawn first.Digest :: (downloadLayer w image path first.Digest).2 ++
          [.receive none, .blocked])
      | some e =>
        (.err e, .spawn first.Digest :: (downloadLayer w image path first.Digest).2 ++
          [.receive (some e)]) := by
  unfold Pull.fanOut
  cases hd : (downloadLayer w image path first.Digest).1 with
  | none =>
    simp [goroutineSends, Pull.wait, receive_single, receive_drained]
  | some e =>
    simp [goroutineSends, Pull.wait, receive_single]

/-- With a single layer the fan-in is exact: one goroutine, one receive, and
the outcome of the download. -/
theorem fanOut_single (w : World) (sched : Nat → Nat) (image path : String) (layer : Layer) :
    Pull.fanOut w sched image path [layer].length [layer] 0 [] =
      match (downloadLayer w image path layer.Digest).1 with
      | none =>
        (.ok (), .spawn layer.Digest :: (downloadLayer w image path layer.Digest).2 ++
          [.receive none])
      | some e =>
        (.err e, .spawn layer.Digest :: (downloadLayer w image path layer.Digest).2 ++
          [.receive (some e)]) := by
  unfold Pull.fanOut
  cases hd : (downloadLayer w image path layer.Digest).1 with
  | none =>
    simp [goroutineSends, Pull.wait, receive_single, Pull.fanOut]
  | some e =>
    simp [goroutineSends, Pull.wait, receive_single]

/-- C2 (code at the failing input): for a resolved list of two layers whose
downloads both succeed, `Pull` starts one goroutine, receives its single
completion, and blocks for ever on a second receive, whatever the scheduler
does: the second goroutine is never started and extraction is never
reached. -/
theorem C2_pull_blocks_after_first_completion (sched : Nat → Nat) :
    Pull twoLayerWorld sched "alpine" "latest" "/r" =
      (.hang,
        [.auth (manifestURL "alpine" "latest"), .get (manifestURL "alpine" "latest"),
          .auth (manifestURL "alpine" "sha256:m"), .get (manifestURL "alpine" "sha256:m"),
          .spawn "sha256:b",
          .auth (blobURL "alpine" "sha256:b"), .print "Downloading layer sha256:b",
          .get (blobURL "alpine" "sha256:b"), .create "/r/sha256:b.tar",
          .copy "/r/sha256:b.tar",
          .receive none, .blocked]) := by
  have h1 : getIndexManifest twoLayerWorld "alpine" "latest" =
      (.ok ⟨2, "application/vnd.oci.image.index.v1+json", [otherEntry, hostEntry], none⟩,
        [.auth (manifestURL "alpine" "latest"), .get (manifestURL "alpine" "latest")]) := by
    decide
  have h2 : Pull.imageLayers twoLayerWorld "alpine"
      ⟨2, "application/vnd.oci.image.index.v1+json", [otherEntry, hostEntry], none⟩ =
      (.ok [layerB, layerA],
        [.auth (manifestURL "alpine" "sha256:m"), .get (manifestURL "alpine" "sha256:m")]) := by
    decide
  have h3 := fanOut_two_or_more twoLayerWorld sched "alpine" "/r" layerB layerA []
  have h4 : downloadLayer twoLayerWorld "alpine" "/r" layerB.Digest =
      (none, [.auth (blobURL "alpine" "sha256:b"), .print "Downloading layer sha256:b",
        .get (blobURL "alpine" "sha256:b"), .create "/r/sha256:b.tar",
        .copy "/r/sha256:b.tar"]) := by
    decide
  rw [h4] at h3
  have h5 : layerB.Digest = "sha256:b" := rfl
  rw [h5] at h3
  simp only [Pull, Traced.andThen, h1, h2]
  rw [h3]
  rfl

/-! ## Layer list of the index manifest: claim C3 -/

/-- C3 (as stated, refuted): for an index manifest whose `layers` is the
empty list `[]` and whose `manifests` holds an entry for the host, `Pull`
takes the (empty) `layers` of the index as the layer list and sends no
request, although resolving through `manifests` finds the digest `sha256:m`
and the layer `layerA`. -/
theorem C3_empty_layers_list_is_taken :
    emptyLayersIndex.Layers = some [] ∧
    Pull.imageLayers calmWorld "alpine" emptyLayersIndex = (.ok [], []) ∧
    findArchitectureSpecificDigest calmWorld.GOARCH calmWorld.GOOS emptyLayersIndex =
      .ok "sha256:m" ∧
    (getLayers calmWorld "alpine" "sha256:m").1 = .ok [layerA] := by
  decide

/-- C3 (amended): `Pull` takes the `layers` of the decoded index as the layer
list exactly when that slice is not nil (the field present and not `null`,
the empty list `[]` included); when it is nil (absent or `null`) `Pull`
resolves the list through the `manifests` entry matching the host platform,
and fails without a request if there is none. -/
theorem C3_own_layers_iff_not_nil (w : World) (image : String)
    (manifest : ImageIndexManifest) :
    (∀ layers, manifest.Layers = some layers →
      Pull.imageLayers w image manifest = (.ok layers, [])) ∧
    (manifest.Layers = none → ∀ digest,
      findArchitectureSpecificDigest w.GOARCH w.GOOS manifest = .ok digest →
      Pull.imageLayers w image manifest = getLayers w image digest) ∧
    (manifest.Layers = none →
      (∀ m ∈ manifest.Manifest,
        ¬ (m.Platform.Architecture = w.GOARCH ∧ m.Platform.OS = w.GOOS)) →
      ∃ e, Pull.imageLayers w image manifest = (.err e, [])) ∧
    (∀ sched tag path t imageLayers, getIndexManifest w image tag = (.ok manifest, t) →
      Pull.imageLayers w image manifest = (.ok imageLayers, []) →
      Pull w sched image tag path =
        (((Pull.fanOut w sched image path imageLayers.length imageLayers 0 []).andThen
            fun _ => extractTar w path).1,
          t ++ ((Pull.fanOut w sched image path imageLayers.length imageLayers 0 []).andThen
            fun _ => extractTar w path).2)) := by
  refine ⟨?_, ?_, ?_, ?_⟩
  · intro layers h
    simp [Pull.imageLayers, h]
  · intro h digest hd
    simp [Pull.imageLayers, h, hd]
  · intro h hno
    have hs := (scan_eq_none_iff w.GOARCH w.GOOS manifest.Manifest).mpr hno
    refine ⟨"No matching layer found for " ++ w.GOARCH ++ "/" ++ w.GOOS, ?_⟩
    simp [Pull.imageLayers, h, findArchitectureSpecificDigest, hs]
  · intro sched tag path t imageLayers hm hl
    simp [Pull, Traced.andThen, hm, hl]

/-- C3 (amended), at concrete inputs: the index with `layers: []`, and the
index of `calmWorld` with no `layers`, on a host with and without a matching
entry. -/
theorem C3_own_layers_iff_not_nil_witness :
    Pull.imageLayers calmWorld "alpine" emptyLayersIndex = (.ok [], []) ∧
    Pull.imageLayers calmWorld "alpine"
        ⟨2, "application/vnd.oci.image.index.v1+json", [otherEntry, hostEntry], none⟩ =
      getLayers calmWorld "alpine" "sha256:m" ∧
    (∃ e, Pull.imageLayers calmWorld "alpine"
        ⟨2, "application/vnd.oci.image.index.v1+json", [otherEntry], none⟩ = (.err e, [])) :=
  ⟨(C3_own_layers_iff_not_nil calmWorld "alpine" emptyLayersIndex).1 [] (by decide),
    (C3_own_layers_iff_not_nil calmWorld "alpine"
      ⟨2, "application/vnd.oci.image.index.v1+json", [otherEntry, hostEntry], none⟩).2.1
      (by decide) "sha256:m" (by decide),
    (C3_own_layers_iff_not_nil calmWorld "alpine"
      ⟨2, "application/vnd.oci.image.index.v1+json", [otherEntry], none⟩).2.2.1
      (by decide) (by decide)⟩

/-! ## Extraction order: claim C5 -/

theorem extractionOrder_steps (w : World) (rootDir : String) (files : List String) :
    extractionOrder (files.flatMap (extractSteps w rootDir)) = files.map (w.join rootDir) := by
  induction files with
  | nil => rfl
  | cons f files ih =>
    rw [List.flatMap_cons, List.map_cons, ← ih]
    rfl

/-- C5 (as stated, refuted): for the manifest order `[layerB, layerA]`, whose
archives `downloadLayer` stores as `sha256:b.tar` and `sha256:a.tar` in the
root directory, `extractTar` extracts the archive of `layerA` first. -/
theorem C5_extraction_not_in_manifest_order :
    [layerB, layerA].map (fun l => twoLayerWorld.join "/r" (archiveName l.Digest)) =
      ["/r/sha256:b.tar", "/r/sha256:a.tar"] ∧
    Event.create "/r/sha256:b.tar" ∈ (downloadLayer twoLayerWorld "alpine" "/r" layerB.Digest).2 ∧
    Event.create "/r/sha256:a.tar" ∈ (downloadLayer twoLayerWorld "alpine" "/r" layerA.Digest).2 ∧
    extractionOrder (extractTar twoLayerWorld "/r").2 =
      ["/r/sha256:a.tar", "/r/sha256:b.tar"] := by
  decide

/-- C5 (amended): `extractTar` extracts the `.tar` entries of the root
directory in the order of `os.ReadDir`, that is, sorted by file name (a
sorted rearrangement of the entries), whatever the order of the manifest.
Its effects are an initial segment of: read the directory, then for each
archive in that order announce it, run `tar` to completion and remove the
archive, before the next archive is touched. When every run and removal
succeeds, it returns no error and has gone through all the archives. -/
theorem C5_extraction_in_file_name_order (w : World) (rootDir : String)
    (names : List String) (h : w.entries rootDir = .ok names) :
    (sortNames names).Perm names ∧ (sortNames names).Pairwise nameLe ∧
    (∃ rest, (extractTar w rootDir).2 ++ rest =
      .readDir rootDir ::
        ((sortNames names).filter fun f => HasSuffix f ".tar").flatMap
          (extractSteps w rootDir)) ∧
    ((∀ f ∈ names, HasSuffix f ".tar" = true →
        w.tar (w.join rootDir f) rootDir = none ∧ w.remove (w.join rootDir f) = none) →
      extractTar w rootDir =
        (.ok (), .readDir rootDir ::
          ((sortNames names).filter fun f => HasSuffix f ".tar").flatMap
            (extractSteps w rootDir)) ∧
      extractionOrder (extractTar w rootDir).2 =
        ((sortNames names).filter fun f => HasSuffix f ".tar").map (w.join rootDir)) := by
  refine ⟨sortNames_perm names, sortNames_sorted names, ?_, ?_⟩
  · obtain ⟨rest, hrest⟩ := extractLoop_initial_segment w rootDir (sortNames names)
    refine ⟨rest, ?_⟩
    simp only [extractTar, h, List.cons_append, hrest]
  · intro hall
    have hloop := extractLoop_complete w rootDir (sortNames names) fun f hf =>
      hall f ((sortNames_perm names).mem_iff.mp hf)
    have hx : extractTar w rootDir =
        (.ok (), .readDir rootDir ::
          ((sortNames names).filter fun f => HasSuffix f ".tar").flatMap
            (extractSteps w rootDir)) := by
      simp only [extractTar, h, hloop]
    refine ⟨hx, ?_⟩
    rw [hx]
    simp only [extractionOrder, extractionOrder_steps]

/-- C5 (amended), at a concrete input: the root directory holding
`sha256:b.tar` and `sha256:a.tar`. -/
theorem C5_extraction_in_file_name_order_witness :
    twoLayerWorld.entries "/r" = .ok ["sha256:b.tar", "sha256:a.tar"] ∧
    extractTar twoLayerWorld "/r" =
      (.ok (), .readDir "/r" ::
        ((sortNames ["sha256:b.tar", "sha256:a.tar"]).filter fun f =>
          HasSuffix f ".tar").flatMap (extractSteps twoLayerWorld "/r")) :=
  ⟨by decide,
    ((C5_extraction_in_file_name_order twoLayerWorld "/r" ["sha256:b.tar", "sha256:a.tar"]
      (by decide)).2.2.2 (by decide)).1⟩

/-! ## Blob download: claim C6 -/

/-- The registry's status code plays no part in the result of `downloadLayer`:
it returns no error exactly when the request was built, authenticated and
answered without a transport error, the file was created, and the body was
read and written to the end. -/
theorem downloadLayer_nil_iff (w : World) (image rootDir digest : String) :
    (downloadLayer w image rootDir digest).1 = none ↔
      (w.newRequest (blobURL image digest) = none ∧ w.auth (blobURL image digest) image = none ∧
        ∃ res, w.blob (blobURL image digest) = .response res ∧
          w.create (w.join rootDir (archiveName digest)) = none ∧
          (∃ body, res.Body = .ok body) ∧
          w.write (w.join rootDir (archiveName digest)) = none) := by
  unfold downloadLayer
  cases h1 : w.newRequest (blobURL image digest) with
  | some e => simp
  | none =>
    cases h2 : w.auth (blobURL image digest) image with
    | some e => simp
    | none =>
      cases h3 : w.blob (blobURL image digest) with
      | failure e => simp
      | responseAndError res e => simp
      | response res =>
        cases h4 : w.create (w.join rootDir (archiveName digest)) with
        | some e => simp
        | none =>
          cases h5 : res.Body with
          | error e => simp [h5]
          | ok body => simp [h5]

/-- C6 (code at the failing input): when the registry answers the blob
request with status 404, `downloadLayer` stores the body of the answer as
`sha256:a.tar` and returns no error. -/
theorem C6_not_found_blob_returns_nil :
    downloadLayer notFoundWorld "alpine" "/r" "sha256:a" =
      (none, [.auth (blobURL "alpine" "sha256:a"), .print "Downloading layer sha256:a",
        .get (blobURL "alpine" "sha256:a"), .create "/r/sha256:a.tar",
        .copy "/r/sha256:a.tar"]) := by
  decide

/-! ## Launch sequence: claim C7, and claim C8 at concrete inputs -/

/-- The launch does not depend on the error returned by `CopyIntoRoot`:
whenever the isolation succeeds the target command is run and the exit status
is 0. -/
theorem launch_runs_whatever_injection_returned (w : World) (root command : String)
    (args : List String) (h : (IsolateRoot w root).1 = none) :
    (main.launch w root command args).1 = .ok 0 ∧
      Event.run command args ∈ (main.launch w root command args).2 := by
  unfold main.launch
  simp [h]

/-- C7 (code at the failing input): when the executable cannot be linked into
the root, `CopyIntoRoot` returns an error, and `main` goes on all the same:
it isolates the root, runs the target command and exits with status 0. -/
theorem C7_failed_injection_is_ignored :
    (CopyIntoRoot missingBinaryWorld "/tmp/my_docker1" "/bin/sh").1 =
      some "link: no such file or directory" ∧
    main.launch missingBinaryWorld "/tmp/my_docker1" "/bin/sh" [] =
      (.ok 0, [.mkdirAll "/tmp/my_docker1/bin", .link "/bin/sh" "/tmp/my_docker1/bin/sh",
        .chroot "/tmp/my_docker1", .unshare, .chdir "/",
        .print "Running /bin/sh []", .run "/bin/sh" [], .exit 0]) ∧
    (main missingBinaryWorld (fun _ => 0) ["mydocker", "run", "alpine:latest", "/bin/sh"]).1 =
      .ok 0 ∧
    Event.run "/bin/sh" [] ∈
      (main missingBinaryWorld (fun _ => 0) ["mydocker", "run", "alpine:latest", "/bin/sh"]).2 := by
  decide

/-- C8, at concrete inputs: a launch that runs `/bin/sh`, and a host that
refuses `chroot`. -/
theorem C8_isolation_ordered_and_gates_execution_witness :
    Event.run "/bin/sh" ["-c", "true"] ∈
      (main calmWorld (fun _ => 0)
        ["mydocker", "run", "alpine:latest", "/bin/sh", "-c", "true"]).2 ∧
    (∃ root pre, calmWorld.mkdirTemp = .ok root ∧ (IsolateRoot calmWorld root).1 = none ∧
      calmWorld.chroot root = none ∧ calmWorld.unshare = none ∧ calmWorld.chdir "/" = none ∧
      (main calmWorld (fun _ => 0)
        ["mydocker", "run", "alpine:latest", "/bin/sh", "-c", "true"]).2 = pre ++
          [.chroot root, .unshare, .chdir "/", .print (runningLine "/bin/sh" ["-c", "true"]),
            .run "/bin/sh" ["-c", "true"], .exit 0]) ∧
    unprivilegedWorld.chroot "/tmp/my_docker1" = some "operation not permitted" ∧
    IsolateRoot unprivilegedWorld "/tmp/my_docker1" =
      (some "operation not permitted", [.chroot "/tmp/my_docker1"]) :=
  ⟨by decide,
    (C8_isolation_ordered_and_gates_execution calmWorld).2.2.2.2.2 (fun _ => 0)
      ["mydocker", "run", "alpine:latest", "/bin/sh", "-c", "true"] "/bin/sh" ["-c", "true"]
      (by decide),
    by decide,
    (C8_isolation_ordered_and_gates_execution unprivilegedWorld).2.1 "/tmp/my_docker1"
      "operation not permitted" (by decide)⟩

/-! ## Digest manifest: claim C10 -/

/-- Whenever the request for the digest manifest fails in transport (no
response, an error), `getLayers` faults on the nil response. -/
theorem getLayers_faults_without_response (w : World) (image digest e : String)
    (h1 : w.newRequest (manifestURL image digest) = none)
    (h2 : w.auth (manifestURL image digest) image = none)
    (h3 : w.layers (manifestURL image digest) = .failure e) :
    (getLayers w image digest).1 = .panic nilDereference := by
  simp [getLayers, h1, h2, h3]

/-- C10 (code at the failing input): when the registry cannot be reached for
the digest manifest, `getLayers` does not return the transport error: it
faults with a nil dereference, and so does `Pull`. -/
theorem C10_getLayers_faults_on_transport_failure :
    unreachableWorld.layers (manifestURL "alpine" "sha256:m") =
      .failure "dial tcp: connection refused" ∧
    getLayers unreachableWorld "alpine" "sha256:m" =
      (.panic nilDereference,
        [.auth (manifestURL "alpine" "sha256:m"), .get (manifestURL "alpine" "sha256:m")]) ∧
    (Pull unreachableWorld (fun _ => 0) "alpine" "latest" "/r").1 = .panic nilDereference := by
  refine ⟨rfl, by decide, by decide⟩

end Mydocker
